import Mathlib

/-!
# LinkFX rope/curve engine — shallow embedding and verification

A shallow embedding of the curve/physics core of `src/js/LinkFX.js`:
the cubic Bezier sampler and the unified sampler `getSmartPoint`, the
per-connector Verlet rope simulation (`createRopeState`,
`updateRopePhysics`, `getRopePoints` with its keyed store, resize
recreation and lazy eviction), the gravity-toggle handler's store
clearing, the animate-link predicate `shouldAnimateLink`, and the
control flow of the patched link-render dispatch.

Modelling conventions:
* JavaScript numbers are modelled as exact rationals (`ℚ`); decimal
  literals of the source are the corresponding exact rationals.
* `Math.sqrt` (and `Math.hypot x y = Math.sqrt (x*x+y*y)`) is an opaque
  numeric routine of the platform; the physics is parameterised by a
  function `sqrtFn : ℚ → ℚ` standing for it.  Theorems that do not
  depend on particular square-root values hold for every `sqrtFn`;
  concrete evaluations instantiate it with `ratSqrt`, a computable
  fixed-point square root.
* `performance.now()` is modelled by passing the clock value `now`
  explicitly into the operations that read it.
* The JavaScript `Map` (insertion ordered, at most one entry per key)
  is modelled as an association list with `Map`-like operations.
* Mutation of the module-level state (`ropePhysics`, `lastRopeCleanup`,
  `gravityEnabled`) is modelled by explicit state passing through
  `LinkFXState`.
-/

namespace LinkFX

attribute [local semireducible] Rat.add Rat.sub Rat.mul Rat.inv
  Rat.ofScientific

set_option maxRecDepth 40000

/-- Constant `ROPE_SEGMENTS` of the source. -/
def ROPE_SEGMENTS : ℕ := 8

/-- Constant `ROPE_GRAVITY = 0.6` of the source. -/
def ROPE_GRAVITY : ℚ := 0.6

/-- Constant `ROPE_DAMPING = 0.985` of the source. -/
def ROPE_DAMPING : ℚ := 0.985

/-- Constant `ROPE_STIFFNESS = 0.25` of the source. -/
def ROPE_STIFFNESS : ℚ := 0.25

/-- Constant `ROPE_ITERATIONS = 4` of the source. -/
def ROPE_ITERATIONS : ℕ := 4

/-- Constant `ROPE_MOMENTUM_TRANSFER = 0.7` of the source. -/
def ROPE_MOMENTUM_TRANSFER : ℚ := 0.7

/-- A rope mass point `{x, y, oldX, oldY, pinned}`. -/
structure RopePoint where
  x : ℚ
  y : ℚ
  oldX : ℚ
  oldY : ℚ
  pinned : Bool
  deriving DecidableEq, Repr

/-- Reading `points[i]`; in the source all reads are in bounds, the
default value is never consulted by the claims proved below. -/
def getP (ps : List RopePoint) (i : ℕ) : RopePoint :=
  ps.getD i ⟨0, 0, 0, 0, false⟩

/-- Per-connector rope state (`createRopeState`'s return shape). -/
structure RopeState where
  points : List RopePoint
  segmentLen : ℚ
  lastA : ℚ × ℚ
  lastB : ℚ × ℚ
  lastSeen : ℚ
  deriving DecidableEq, Repr

/-- `createRopeState(a, b, len)` of the source; `now` is the
`performance.now()` value read for `lastSeen`. -/
def createRopeState (a b : ℚ × ℚ) (len now : ℚ) : RopeState :=
  let numPoints := ROPE_SEGMENTS + 1
  let points := (List.range numPoints).map (fun (i : ℕ) =>
    let t : ℚ := (i : ℚ) / ((numPoints - 1 : ℕ) : ℚ)
    let x := a.1 + (b.1 - a.1) * t
    let sagAmount := min (len * 0.15) 60
    let sag := sagAmount * 4 * t * (1 - t)
    let y := a.2 + (b.2 - a.2) * t + sag
    { x := x, y := y, oldX := x, oldY := y,
      pinned := i == 0 || i == numPoints - 1 : RopePoint })
  { points := points,
    segmentLen := len / ((numPoints - 1 : ℕ) : ℚ),
    lastA := a, lastB := b, lastSeen := now }

/-- Momentum transfer onto the start half of the chain
(`updateRopePhysics`, loop `for (i = 1; i < halfLen; i++)`). -/
def momentumStartPhase (dxStart dyStart : ℚ) (ps : List RopePoint) :
    List RopePoint :=
  let halfLen := ps.length / 2
  (List.range' 1 (halfLen - 1)).foldl (fun acc (i : ℕ) =>
    let influence := (1 - (i : ℚ) / (halfLen : ℚ)) ^ 2 * ROPE_MOMENTUM_TRANSFER
    let p := getP acc i
    acc.set i { p with oldX := p.oldX - dxStart * influence,
                       oldY := p.oldY - dyStart * influence }) ps

/-- Momentum transfer onto the end half of the chain
(`updateRopePhysics`, loop `for (i = length-2; i >= length-halfLen; i--)`). -/
def momentumEndPhase (dxEnd dyEnd : ℚ) (ps : List RopePoint) :
    List RopePoint :=
  let n := ps.length
  let halfLen := n / 2
  ((List.range' (n - halfLen) (halfLen - 1)).reverse).foldl (fun acc (i : ℕ) =>
    let distFromEnd := n - 1 - i
    let influence :=
      (1 - (distFromEnd : ℚ) / (halfLen : ℚ)) ^ 2 * ROPE_MOMENTUM_TRANSFER
    let p := getP acc i
    acc.set i { p with oldX := p.oldX - dxEnd * influence,
                       oldY := p.oldY - dyEnd * influence }) ps

/-- Endpoint pinning: force current and previous positions of
`points[0]` and `points[length-1]` to exactly `a` and `b`. -/
def pinPhase (a b : ℚ × ℚ) (ps : List RopePoint) : List RopePoint :=
  let n := ps.length
  let p0 := getP ps 0
  let ps := ps.set 0 { p0 with x := a.1, y := a.2, oldX := a.1, oldY := a.2 }
  let pn := getP ps (n - 1)
  ps.set (n - 1) { pn with x := b.1, y := b.2, oldX := b.1, oldY := b.2 }

/-- Verlet integration over the interior points
(`for (i = 1; i < length-1; i++)`). -/
def verletPhase (ps : List RopePoint) : List RopePoint :=
  let n := ps.length
  (List.range' 1 (n - 2)).foldl (fun acc (i : ℕ) =>
    let p := getP acc i
    let vx := (p.x - p.oldX) * ROPE_DAMPING
    let vy := (p.y - p.oldY) * ROPE_DAMPING
    acc.set i { p with oldX := p.x, oldY := p.y,
                       x := p.x + vx, y := p.y + vy + ROPE_GRAVITY }) ps

/-- One constraint-relaxation sweep over all adjacent pairs. -/
def constraintPass (sqrtFn : ℚ → ℚ) (targetLen : ℚ)
    (ps : List RopePoint) : List RopePoint :=
  let n := ps.length
  (List.range (n - 1)).foldl (fun acc (i : ℕ) =>
    let p1 := getP acc i
    let p2 := getP acc (i + 1)
    let dx := p2.x - p1.x
    let dy := p2.y - p1.y
    let dist := sqrtFn (dx * dx + dy * dy)
    if dist < 0.001 then acc
    else
      let diff := (targetLen - dist) / dist
      let offsetX := dx * diff * 0.5
      let offsetY := dy * diff * 0.5
      let acc :=
        if !p1.pinned then
          acc.set i { p1 with x := p1.x - offsetX * ROPE_STIFFNESS,
                              y := p1.y - offsetY * ROPE_STIFFNESS }
        else acc
      if !p2.pinned then
        acc.set (i + 1) { p2 with x := p2.x + offsetX * ROPE_STIFFNESS,
                                  y := p2.y + offsetY * ROPE_STIFFNESS }
      else acc) ps

/-- The `ROPE_ITERATIONS` constraint-relaxation sweeps. -/
def constraintPhase (sqrtFn : ℚ → ℚ) (targetLen : ℚ)
    (ps : List RopePoint) : List RopePoint :=
  (List.range ROPE_ITERATIONS).foldl
    (fun acc _ => constraintPass sqrtFn targetLen acc) ps

/-- `updateRopePhysics(state, a, b, len)` of the source: momentum
transfer, endpoint pinning, Verlet integration, constraint relaxation,
and recording of `lastA`/`lastB`.  `sqrtFn` stands for `Math.sqrt`
(so `Math.hypot dx dy` is `sqrtFn (dx*dx + dy*dy)`). -/
def updateRopePhysics (sqrtFn : ℚ → ℚ) (state : RopeState)
    (a b : ℚ × ℚ) (len : ℚ) : RopeState :=
  let ps := state.points
  let dxStart := a.1 - state.lastA.1
  let dyStart := a.2 - state.lastA.2
  let dxEnd := b.1 - state.lastB.1
  let dyEnd := b.2 - state.lastB.2
  let startMoved := sqrtFn (dxStart * dxStart + dyStart * dyStart)
  let endMoved := sqrtFn (dxEnd * dxEnd + dyEnd * dyEnd)
  let ps := if startMoved > 0.1 then momentumStartPhase dxStart dyStart ps else ps
  let ps := if endMoved > 0.1 then momentumEndPhase dxEnd dyEnd ps else ps
  let ps := pinPhase a b ps
  let ps := verletPhase ps
  let targetLen := len / ((ps.length : ℚ) - 1)
  let ps := constraintPhase sqrtFn targetLen ps
  { state with points := ps, lastA := a, lastB := b }

/-- Fuel-driven Newton iteration for the integer square root. -/
def isqrtIter (fuel n x : ℕ) : ℕ :=
  match fuel with
  | 0 => x
  | fuel + 1 =>
    let next := (x + n / x) / 2
    if next < x then isqrtIter fuel n next else x

/-- Integer square root (`⌊√n⌋` for every `n < 2 ^ 128`). -/
def isqrt (n : ℕ) : ℕ :=
  if n ≤ 1 then n else isqrtIter 128 n n

/-- Computable stand-in for `Math.sqrt` used to evaluate the model at
concrete inputs: the square root rounded down to a multiple of
`10 ^ (-6)` (on negative inputs it returns `0`; the simulation only
ever applies it to sums of squares). -/
def ratSqrt (q : ℚ) : ℚ :=
  ((isqrt (Rat.floor (q * 1000000000000)).toNat : ℚ)) / 1000000

/-- `bezierPoint(t, a, b, cp)` of the source: cubic Bezier with control
points `(a.x + cp, a.y)` and `(b.x - cp, b.y)`. -/
def bezierPoint (t : ℚ) (a b : ℚ × ℚ) (cp : ℚ) : ℚ × ℚ :=
  let mt := 1 - t
  let mt2 := mt * mt
  let mt3 := mt2 * mt
  let t2 := t * t
  let t3 := t2 * t
  let cpA := a.1 + cp
  let cpB := b.1 - cp
  (mt3 * a.1 + 3 * mt2 * t * cpA + 3 * mt * t2 * cpB + t3 * b.1,
   mt3 * a.2 + 3 * mt2 * t * a.2 + 3 * mt * t2 * b.2 + t3 * b.2)

/-- `getSmartPoint(t, a, b, cp, ropePoints)` of the source: rope
polyline interpolation when at least two rope points are given, else
the Bezier.  `Math.floor` and `Math.min` act on integer indices here;
they are modelled on `ℤ` (indexing with `Int.toNat`, which the source
exercises only for `t ≥ 0`). -/
def getSmartPoint (t : ℚ) (a b : ℚ × ℚ) (cp : ℚ)
    (ropePoints : Option (List RopePoint)) : ℚ × ℚ :=
  match ropePoints with
  | some ps =>
    if ps.length ≥ 2 then
      let segmentLen : ℚ := 1 / ((ps.length : ℚ) - 1)
      let segment : ℤ := Rat.floor (t * ((ps.length : ℚ) - 1))
      let localT : ℚ := (t - (segment : ℚ) * segmentLen) / segmentLen
      let i : ℤ := min segment ((ps.length : ℤ) - 2)
      let p1 := getP ps i.toNat
      let p2 := getP ps (i.toNat + 1)
      (p1.x + (p2.x - p1.x) * localT, p1.y + (p2.y - p1.y) * localT)
    else bezierPoint t a b cp
  | none => bezierPoint t a b cp

/-- A connector (`link`): optional stable identity plus its two
endpoint node ids, the fields the core reads. -/
structure Link where
  id : Option ℤ
  origin_id : ℤ
  target_id : ℤ
  deriving DecidableEq, Repr

/-- `Math.round`: round half towards positive infinity. -/
def jsRound (q : ℚ) : ℤ := Rat.floor (q + 1 / 2)

/-- `getRopeKey(link, a, b)` of the source: stable `"link_<id>"` key
when the connector has an identity, else the quantized-position
fallback key. -/
def getRopeKey (link : Option Link) (a b : ℚ × ℚ) : String :=
  match link with
  | some l =>
    match l.id with
    | some id => "link_" ++ toString id
    | none =>
      "pos_" ++ toString (jsRound (a.1 / 10)) ++ "_" ++
        toString (jsRound (a.2 / 10)) ++ "_" ++
        toString (jsRound (b.1 / 10)) ++ "_" ++ toString (jsRound (b.2 / 10))
  | none =>
    "pos_" ++ toString (jsRound (a.1 / 10)) ++ "_" ++
      toString (jsRound (a.2 / 10)) ++ "_" ++
      toString (jsRound (b.1 / 10)) ++ "_" ++ toString (jsRound (b.2 / 10))

/-- The rope-physics store: the JavaScript `Map` as an insertion-ordered
association list with at most one entry per key. -/
abbrev Store := List (String × RopeState)

/-- `Map.prototype.get`. -/
def storeGet (s : Store) (k : String) : Option RopeState :=
  (List.find? (fun kv => kv.1 == k) s).map (·.2)

/-- `Map.prototype.has`. -/
def storeHas (s : Store) (k : String) : Bool :=
  (storeGet s k).isSome

/-- `Map.prototype.set`: replace in place when the key exists,
else append (insertion order). -/
def storeSet (s : Store) (k : String) (v : RopeState) : Store :=
  if storeHas s k then
    s.map (fun kv => if kv.1 == k then (k, v) else kv)
  else s ++ [(k, v)]

/-- `Map.prototype.size`. -/
def storeSize (s : Store) : ℕ := s.length

/-- The module-level mutable state the rope store lives in:
`gravityEnabled`, `ropePhysics`, `lastRopeCleanup`. -/
structure LinkFXState where
  gravityEnabled : Bool
  ropePhysics : Store
  lastRopeCleanup : ℚ
  deriving DecidableEq

/-- `getRopePoints(link, a, b, len)` of the source, with the
module-level state passed explicitly and `now` the value
`performance.now()` returns during the call.  Returns the drawn rope
points (or `null`) together with the updated module state. -/
def getRopePoints (sqrtFn : ℚ → ℚ) (st : LinkFXState) (link : Option Link)
    (a b : ℚ × ℚ) (len now : ℚ) : Option (List RopePoint) × LinkFXState :=
  if st.gravityEnabled = false then (none, st)
  else
    let key := getRopeKey link a b
    let store0 :=
      if storeHas st.ropePhysics key then st.ropePhysics
      else storeSet st.ropePhysics key (createRopeState a b len now)
    let state := (storeGet store0 key).getD (createRopeState a b len now)
    let state := { state with lastSeen := now }
    let store1 := storeSet store0 key state
    let doCleanup : Bool :=
      decide (storeSize store1 > 60) && decide (now - st.lastRopeCleanup > 3000)
    let store2 :=
      if doCleanup then
        store1.filter (fun kv => !decide (now - kv.2.lastSeen > 8000))
      else store1
    let cleanup2 := if doCleanup then now else st.lastRopeCleanup
    let expectedLen := len / ((ROPE_SEGMENTS : ℕ) : ℚ)
    if |state.segmentLen - expectedLen| > 20 then
      let fresh := createRopeState a b len now
      (some fresh.points,
       { st with ropePhysics := storeSet store2 key fresh,
                 lastRopeCleanup := cleanup2 })
    else
      let upd := updateRopePhysics sqrtFn state a b len
      (some upd.points,
       { st with ropePhysics := storeSet store2 key upd,
                 lastRopeCleanup := cleanup2 })

/-- The gravity-toggle click handler (`buildSidebarContent`): flip
`gravityEnabled` and, when it is now disabled, synchronously clear the
whole rope store (`ropePhysics.clear()`).  The animation-loop and
canvas-redraw side effects are external to the core. -/
def gravityToggleClick (st : LinkFXState) : LinkFXState :=
  let g := !st.gravityEnabled
  { st with gravityEnabled := g,
            ropePhysics := if g then st.ropePhysics else [] }

/-- The `animationMode` configuration value. -/
inductive AnimationMode where
  | static
  | full
  | selected
  deriving DecidableEq, Repr

/-- `shouldAnimateLink(link)` of the source; `selectedIds` is the set
`getSelectedNodeIds()` reads from the host. -/
def shouldAnimateLink (mode : AnimationMode) (selectedIds : Finset ℤ)
    (link : Option Link) : Bool :=
  match mode with
  | .full => true
  | .static => true
  | .selected =>
    match link with
    | none => true
    | some l =>
      if selectedIds.card = 0 then false
      else decide (l.origin_id ∈ selectedIds) || decide (l.target_id ∈ selectedIds)

/-- An endpoint argument of the patched render dispatch, as the
source's behaviour discriminates it: a two-number array; `null` or
`undefined`, on which property access (`a[0]`) throws a `TypeError`;
or any other non-array value (number, string, plain object), on which
property access yields `undefined` and arithmetic yields `NaN`. -/
inductive JSVal where
  | numArr (x y : ℚ)
  | nullish
  | otherVal
  deriving DecidableEq, Repr

/-- `Array.isArray`. -/
def JSVal.isArray : JSVal → Bool
  | .numArr _ _ => true
  | .nullish => false
  | .otherVal => false

/-- Whether indexing the value (`v[0]`) throws in JavaScript: it does
exactly for `null` and `undefined`. -/
def JSVal.indexThrows : JSVal → Bool
  | .nullish => true
  | _ => false

/-- What one call of the patched `renderLink` does to the canvas. -/
structure DispatchOutcome where
  effectDrawn : Bool
  ropeDrawn : Bool
  originalCalled : Bool
  deriving DecidableEq, Repr

/-- Control flow of `patchedRenderLink`.  Its first statement computes
`len = Math.hypot(b[0] - a[0], b[1] - a[1])` unconditionally, outside
every try/catch, so a `null`/`undefined` endpoint throws a `TypeError`
that propagates to the host before anything is drawn — the `none`
result.  On every other input the dispatch never throws (arithmetic on
the remaining malformed endpoints is NaN-tolerant) and performs: the
effect branch, guarded by
`currentEffect !== null && ctx && Array.isArray(a) && Array.isArray(b)`
and `shouldAnimateLink`; the rope branch, guarded by
`gravityEnabled && ropePoints && ctx` where `getRopePoints` returns a
(non-null) array exactly when gravity is enabled; and the original
renderer, only under `currentEffect === null && !gravityEnabled`. -/
def patchedRenderLink (currentEffect : Option ℕ) (gravityEnabled : Bool)
    (mode : AnimationMode) (selectedIds : Finset ℤ) (link : Option Link)
    (a b : JSVal) (ctx : Bool) : Option DispatchOutcome :=
  if a.indexThrows || b.indexThrows then none
  else
    let effectDrawn := currentEffect.isSome && ctx && a.isArray && b.isArray &&
      shouldAnimateLink mode selectedIds link
    let ropeDrawn := gravityEnabled && ctx
    let originalCalled := currentEffect.isNone && !gravityEnabled
    some { effectDrawn := effectDrawn, ropeDrawn := ropeDrawn,
           originalCalled := originalCalled }

/-- Structural well-formedness of a rope state: exactly
`ROPE_SEGMENTS + 1` points, with precisely the two terminal points
pinned. -/
def WFState (s : RopeState) : Prop :=
  s.points.length = ROPE_SEGMENTS + 1 ∧
  ∀ i < s.points.length,
    (getP s.points i).pinned = (i == 0 || i == ROPE_SEGMENTS)

instance (s : RopeState) : Decidable (WFState s) := by
  unfold WFState; infer_instance

/-- A three-point rope polyline (first point `(0,0)`, last `(10,0)`)
used to evaluate the sampler at its parameter boundary. -/
def rope3 : List RopePoint :=
  [⟨0, 0, 0, 0, true⟩, ⟨5, 5, 5, 5, false⟩, ⟨10, 0, 10, 0, true⟩]

/-- A store holding 61 distinct connector entries, all last seen at
time `0`: the eviction scenario's store. -/
def bigStore : Store :=
  (List.range 61).map
    (fun i => ("link_" ++ toString (i : ℤ), createRopeState (0, 0) (1, 0) 1 0))

/-! ## Helper lemmas on folds, indexed updates and the store -/

theorem foldl_inv {α β : Type*} {P : β → Prop} (f : β → α → β)
    (l : List α) (init : β)
    (hstep : ∀ acc x, x ∈ l → P acc → P (f acc x)) (h0 : P init) :
    P (l.foldl f init) := by
  induction l generalizing init with
  | nil => exact h0
  | cons x xs ih =>
    exact ih (f init x)
      (fun acc y hy => hstep acc y (List.mem_cons_of_mem x hy))
      (hstep init x (List.mem_cons_self x xs) h0)

theorem getP_set_ne (ps : List RopePoint) (i j : ℕ) (v : RopePoint)
    (h : i ≠ j) : getP (ps.set i v) j = getP ps j := by
  simp [getP, List.getD_eq_getElem?_getD, List.getElem?_set_ne h]

theorem getP_set_self (ps : List RopePoint) (i : ℕ) (v : RopePoint)
    (h : i < ps.length) : getP (ps.set i v) i = v := by
  simp [getP, List.getD_eq_getElem?_getD, List.getElem?_set_self h]

theorem getP_set_pinned {ps : List RopePoint} {i j : ℕ} {v : RopePoint}
    (hv : v.pinned = (getP ps i).pinned) :
    (getP (ps.set i v) j).pinned = (getP ps j).pinned := by
  by_cases hij : i = j
  · subst hij
    by_cases hlt : i < ps.length
    · rw [getP_set_self ps i v hlt, hv]
    · rw [List.set_eq_of_length_le (Nat.le_of_not_lt hlt)]
  · rw [getP_set_ne ps i j v hij]

theorem flags_after_set {ps acc : List RopePoint} {i : ℕ} {v : RopePoint}
    (hflag : ∀ j, (getP acc j).pinned = (getP ps j).pinned)
    (hv : v.pinned = (getP acc i).pinned) :
    ∀ j, (getP (acc.set i v) j).pinned = (getP ps j).pinned := by
  intro j
  rw [getP_set_pinned hv]
  exact hflag j

theorem momentumStartPhase_spec (dx dy : ℚ) (ps : List RopePoint) :
    (momentumStartPhase dx dy ps).length = ps.length ∧
    (∀ j, (getP (momentumStartPhase dx dy ps) j).pinned = (getP ps j).pinned) ∧
    getP (momentumStartPhase dx dy ps) 0 = getP ps 0 ∧
    getP (momentumStartPhase dx dy ps) (ps.length - 1) =
      getP ps (ps.length - 1) := by
  unfold momentumStartPhase
  refine foldl_inv (P := fun acc => acc.length = ps.length ∧
    (∀ j, (getP acc j).pinned = (getP ps j).pinned) ∧
    getP acc 0 = getP ps 0 ∧
    getP acc (ps.length - 1) = getP ps (ps.length - 1)) _ _ _ ?_
    ⟨rfl, fun _ => rfl, rfl, rfl⟩
  intro acc i hi h
  obtain ⟨hlen, hflag, h0, hn⟩ := h
  rw [List.mem_range'] at hi
  obtain ⟨k, hk, rfl⟩ := hi
  dsimp only
  refine ⟨by simp [List.length_set, hlen], flags_after_set hflag rfl, ?_, ?_⟩
  · rw [getP_set_ne _ _ _ _ (by omega)]
    exact h0
  · rw [getP_set_ne _ _ _ _ (by omega)]
    exact hn

theorem momentumEndPhase_spec (dx dy : ℚ) (ps : List RopePoint) :
    (momentumEndPhase dx dy ps).length = ps.length ∧
    (∀ j, (getP (momentumEndPhase dx dy ps) j).pinned = (getP ps j).pinned) ∧
    getP (momentumEndPhase dx dy ps) 0 = getP ps 0 ∧
    getP (momentumEndPhase dx dy ps) (ps.length - 1) =
      getP ps (ps.length - 1) := by
  unfold momentumEndPhase
  refine foldl_inv (P := fun acc => acc.length = ps.length ∧
    (∀ j, (getP acc j).pinned = (getP ps j).pinned) ∧
    getP acc 0 = getP ps 0 ∧
    getP acc (ps.length - 1) = getP ps (ps.length - 1)) _ _ _ ?_
    ⟨rfl, fun _ => rfl, rfl, rfl⟩
  intro acc i hi h
  obtain ⟨hlen, hflag, h0, hn⟩ := h
  rw [List.mem_reverse, List.mem_range'] at hi
  obtain ⟨k, hk, rfl⟩ := hi
  dsimp only
  refine ⟨by simp [List.length_set, hlen], flags_after_set hflag rfl, ?_, ?_⟩
  · rw [getP_set_ne _ _ _ _ (by omega)]
    exact h0
  · rw [getP_set_ne _ _ _ _ (by omega)]
    exact hn

theorem pinPhase_length (a b : ℚ × ℚ) (ps : List RopePoint) :
    (pinPhase a b ps).length = ps.length := by
  unfold pinPhase
  simp [List.length_set]

theorem pinPhase_flags (a b : ℚ × ℚ) (ps : List RopePoint) :
    ∀ j, (getP (pinPhase a b ps) j).pinned = (getP ps j).pinned := by
  unfold pinPhase
  dsimp only
  exact flags_after_set (flags_after_set (fun _ => rfl) rfl) rfl

theorem pinPhase_endpoints (a b : ℚ × ℚ) (ps : List RopePoint)
    (hn : 2 ≤ ps.length) :
    getP (pinPhase a b ps) 0 =
      { getP ps 0 with x := a.1, y := a.2, oldX := a.1, oldY := a.2 } ∧
    getP (pinPhase a b ps) (ps.length - 1) =
      { getP ps (ps.length - 1) with
          x := b.1, y := b.2, oldX := b.1, oldY := b.2 } := by
  unfold pinPhase
  dsimp only
  constructor
  · rw [getP_set_ne _ _ _ _ (by omega), getP_set_self _ _ _ (by omega)]
  · rw [getP_set_self _ _ _ (by rw [List.length_set]; omega),
      getP_set_ne _ _ _ _ (by omega)]

theorem verletPhase_spec (ps : List RopePoint) :
    (verletPhase ps).length = ps.length ∧
    (∀ j, (getP (verletPhase ps) j).pinned = (getP ps j).pinned) ∧
    getP (verletPhase ps) 0 = getP ps 0 ∧
    getP (verletPhase ps) (ps.length - 1) = getP ps (ps.length - 1) := by
  unfold verletPhase
  refine foldl_inv (P := fun acc => acc.length = ps.length ∧
    (∀ j, (getP acc j).pinned = (getP ps j).pinned) ∧
    getP acc 0 = getP ps 0 ∧
    getP acc (ps.length - 1) = getP ps (ps.length - 1)) _ _ _ ?_
    ⟨rfl, fun _ => rfl, rfl, rfl⟩
  intro acc i hi h
  obtain ⟨hlen, hflag, h0, hn⟩ := h
  rw [List.mem_range'] at hi
  obtain ⟨k, hk, rfl⟩ := hi
  dsimp only
  refine ⟨by simp [List.length_set, hlen], flags_after_set hflag rfl, ?_, ?_⟩
  · rw [getP_set_ne _ _ _ _ (by omega)]
    exact h0
  · rw [getP_set_ne _ _ _ _ (by omega)]
    exact hn

theorem constraintPass_spec (sqrtFn : ℚ → ℚ) (targetLen : ℚ)
    (ps : List RopePoint) :
    (constraintPass sqrtFn targetLen ps).length = ps.length ∧
    (∀ j, (getP (constraintPass sqrtFn targetLen ps) j).pinned =
      (getP ps j).pinned) ∧
    (∀ j, (getP ps j).pinned = true →
      getP (constraintPass sqrtFn targetLen ps) j = getP ps j) := by
  unfold constraintPass
  refine foldl_inv (P := fun acc => acc.length = ps.length ∧
    (∀ j, (getP acc j).pinned = (getP ps j).pinned) ∧
    (∀ j, (getP ps j).pinned = true → getP acc j = getP ps j)) _ _ _ ?_
    ⟨rfl, fun _ => rfl, fun _ _ => rfl⟩
  intro acc i hi h
  obtain ⟨hlen, hflag, hpin⟩ := h
  dsimp only
  split
  · exact ⟨hlen, hflag, hpin⟩
  by_cases h1 : (getP acc i).pinned = true
  · by_cases h2 : (getP acc (i + 1)).pinned = true
    · simp only [h1, h2, Bool.not_true, Bool.false_eq_true, if_false]
      exact ⟨hlen, hflag, hpin⟩
    · have h2' : (getP acc (i + 1)).pinned = false := by
        simpa using h2
      simp only [h1, h2', Bool.not_true, Bool.not_false, Bool.false_eq_true,
        if_false, if_true]
      refine ⟨by simp [List.length_set, hlen], flags_after_set hflag h2'.symm, ?_⟩
      intro j hj
      have hne : i + 1 ≠ j := by
        intro he
        have hc : (getP acc (i + 1)).pinned = true := by
          rw [hflag (i + 1), he]
          exact hj
        rw [h2'] at hc
        simp at hc
      rw [getP_set_ne _ _ _ _ hne]
      exact hpin j hj
  · have h1' : (getP acc i).pinned = false := by simpa using h1
    by_cases h2 : (getP acc (i + 1)).pinned = true
    · simp only [h1', h2, Bool.not_true, Bool.not_false, Bool.false_eq_true,
        if_false, if_true]
      refine ⟨by simp [List.length_set, hlen], flags_after_set hflag h1'.symm, ?_⟩
      intro j hj
      have hne : i ≠ j := by
        intro he
        have hc : (getP acc i).pinned = true := by
          rw [hflag i, he]
          exact hj
        rw [h1'] at hc
        simp at hc
      rw [getP_set_ne _ _ _ _ hne]
      exact hpin j hj
    · have h2' : (getP acc (i + 1)).pinned = false := by simpa using h2
      simp only [h1', h2', Bool.not_false, if_true]
      have hA : ∀ j, (getP (acc.set i
          { x := (getP acc i).x -
              ((getP acc (i + 1)).x - (getP acc i).x) *
                ((targetLen - sqrtFn (((getP acc (i + 1)).x - (getP acc i).x) *
                    ((getP acc (i + 1)).x - (getP acc i).x) +
                  ((getP acc (i + 1)).y - (getP acc i).y) *
                    ((getP acc (i + 1)).y - (getP acc i).y))) /
                  sqrtFn (((getP acc (i + 1)).x - (getP acc i).x) *
                    ((getP acc (i + 1)).x - (getP acc i).x) +
                  ((getP acc (i + 1)).y - (getP acc i).y) *
                    ((getP acc (i + 1)).y - (getP acc i).y))) * 0.5 *
                ROPE_STIFFNESS,
            y := (getP acc i).y -
              ((getP acc (i + 1)).y - (getP acc i).y) *
                ((targetLen - sqrtFn (((getP acc (i + 1)).x - (getP acc i).x) *
                    ((getP acc (i + 1)).x - (getP acc i).x) +
                  ((getP acc (i + 1)).y - (getP acc i).y) *
                    ((getP acc (i + 1)).y - (getP acc i).y))) /
                  sqrtFn (((getP acc (i + 1)).x - (getP acc i).x) *
                    ((getP acc (i + 1)).x - (getP acc i).x) +
                  ((getP acc (i + 1)).y - (getP acc i).y) *
                    ((getP acc (i + 1)).y - (getP acc i).y))) * 0.5 *
                ROPE_STIFFNESS,
            oldX := (getP acc i).oldX, oldY := (getP acc i).oldY,
            pinned := false }) j).pinned = (getP ps j).pinned :=
        flags_after_set hflag h1'.symm
      refine ⟨by simp [List.length_set, hlen], ?_, ?_⟩
      · refine flags_after_set hA ?_
        rw [hA (i + 1), ← hflag (i + 1)]
        exact h2'.symm
      · intro j hj
        have hne1 : i ≠ j := by
          intro he
          have hc : (getP acc i).pinned = true := by
            rw [hflag i, he]
            exact hj
          rw [h1'] at hc
          simp at hc
        have hne2 : i + 1 ≠ j := by
          intro he
          have hc : (getP acc (i + 1)).pinned = true := by
            rw [hflag (i + 1), he]
            exact hj
          rw [h2'] at hc
          simp at hc
        rw [getP_set_ne _ _ _ _ hne2, getP_set_ne _ _ _ _ hne1]
        exact hpin j hj

theorem constraintPhase_spec (sqrtFn : ℚ → ℚ) (targetLen : ℚ)
    (ps : List RopePoint) :
    (constraintPhase sqrtFn targetLen ps).length = ps.length ∧
    (∀ j, (getP (constraintPhase sqrtFn targetLen ps) j).pinned =
      (getP ps j).pinned) ∧
    (∀ j, (getP ps j).pinned = true →
      getP (constraintPhase sqrtFn targetLen ps) j = getP ps j) := by
  unfold constraintPhase
  refine foldl_inv (P := fun acc => acc.length = ps.length ∧
    (∀ j, (getP acc j).pinned = (getP ps j).pinned) ∧
    (∀ j, (getP ps j).pinned = true → getP acc j = getP ps j)) _ _ _ ?_
    ⟨rfl, fun _ => rfl, fun _ _ => rfl⟩
  intro acc x _ h
  obtain ⟨hlen, hflag, hpin⟩ := h
  obtain ⟨plen, pflag, ppin⟩ := constraintPass_spec sqrtFn targetLen acc
  refine ⟨plen.trans hlen, fun j => (pflag j).trans (hflag j), ?_⟩
  intro j hj
  have hj' : (getP acc j).pinned = true := by rw [hflag j]; exact hj
  exact (ppin j hj').trans (hpin j hj)

theorem updateRopePhysics_shape (sqrtFn : ℚ → ℚ) (state : RopeState)
    (a b : ℚ × ℚ) (len : ℚ) :
    ∃ qs : List RopePoint,
      qs.length = state.points.length ∧
      (∀ j, (getP qs j).pinned = (getP state.points j).pinned) ∧
      getP qs 0 = getP state.points 0 ∧
      getP qs (state.points.length - 1) =
        getP state.points (state.points.length - 1) ∧
      (updateRopePhysics sqrtFn state a b len).points =
        constraintPhase sqrtFn
          (len / (((verletPhase (pinPhase a b qs)).length : ℚ) - 1))
          (verletPhase (pinPhase a b qs)) := by
  unfold updateRopePhysics
  dsimp only
  refine ⟨_, ?_, ?_, ?_, ?_, rfl⟩
  · split
    · rw [(momentumEndPhase_spec _ _ _).1]
      split
      · exact (momentumStartPhase_spec _ _ _).1
      · rfl
    · split
      · exact (momentumStartPhase_spec _ _ _).1
      · rfl
  · intro j
    split
    · rw [(momentumEndPhase_spec _ _ _).2.1 j]
      split
      · exact (momentumStartPhase_spec _ _ _).2.1 j
      · rfl
    · split
      · exact (momentumStartPhase_spec _ _ _).2.1 j
      · rfl
  · split
    · rw [(momentumEndPhase_spec _ _ _).2.2.1]
      split
      · exact (momentumStartPhase_spec _ _ _).2.2.1
      · rfl
    · split
      · exact (momentumStartPhase_spec _ _ _).2.2.1
      · rfl
  · split
    · have hL : (if sqrtFn ((a.1 - state.lastA.1) * (a.1 - state.lastA.1) +
          (a.2 - state.lastA.2) * (a.2 - state.lastA.2)) > 0.1 then
            momentumStartPhase (a.1 - state.lastA.1) (a.2 - state.lastA.2)
              state.points
          else state.points).length = state.points.length := by
        split
        · exact (momentumStartPhase_spec _ _ _).1
        · rfl
      rw [show state.points.length - 1 =
          ((if sqrtFn ((a.1 - state.lastA.1) * (a.1 - state.lastA.1) +
            (a.2 - state.lastA.2) * (a.2 - state.lastA.2)) > 0.1 then
              momentumStartPhase (a.1 - state.lastA.1) (a.2 - state.lastA.2)
                state.points
            else state.points).length) - 1 from by rw [hL],
        (momentumEndPhase_spec _ _ _).2.2.2, hL]
      split
      · rw [show state.points.length - 1 = state.points.length - 1 from rfl]
        have := (momentumStartPhase_spec (a.1 - state.lastA.1)
          (a.2 - state.lastA.2) state.points).2.2.2
        exact this
      · rfl
    · split
      · exact (momentumStartPhase_spec _ _ _).2.2.2
      · rfl

theorem updateRopePhysics_length_flags (sqrtFn : ℚ → ℚ) (state : RopeState)
    (a b : ℚ × ℚ) (len : ℚ) :
    (updateRopePhysics sqrtFn state a b len).points.length =
      state.points.length ∧
    ∀ j, (getP (updateRopePhysics sqrtFn state a b len).points j).pinned =
      (getP state.points j).pinned := by
  obtain ⟨qs, hqlen, hqflag, _, _, hpts⟩ :=
    updateRopePhysics_shape sqrtFn state a b len
  rw [hpts]
  constructor
  · rw [(constraintPhase_spec _ _ _).1, (verletPhase_spec _).1,
      pinPhase_length, hqlen]
  · intro j
    exact ((constraintPhase_spec _ _ _).2.1 j).trans
      (((verletPhase_spec _).2.1 j).trans
        ((pinPhase_flags a b qs j).trans (hqflag j)))

theorem mem_storeSet {s : Store} {k : String} {v : RopeState}
    {kv : String × RopeState} (h : kv ∈ storeSet s k v) :
    kv = (k, v) ∨ kv ∈ s := by
  unfold storeSet at h
  split at h
  · rw [List.mem_map] at h
    obtain ⟨kv0, hkv0, heq⟩ := h
    by_cases hk : kv0.1 == k
    · rw [if_pos hk] at heq
      exact Or.inl heq.symm
    · rw [if_neg hk] at heq
      exact Or.inr (heq ▸ hkv0)
  · rw [List.mem_append] at h
    rcases h with h | h
    · exact Or.inr h
    · simp only [List.mem_singleton] at h
      exact Or.inl h

theorem find?_map_set_self (s : Store) (k : String) (v : RopeState)
    (h : storeHas s k = true) :
    List.find? (fun kv => kv.1 == k)
      (s.map (fun kv => if kv.1 == k then (k, v) else kv)) = some (k, v) := by
  induction s with
  | nil => simp [storeHas, storeGet] at h
  | cons hd tl ih =>
    rw [List.map_cons]
    by_cases hk : (hd.1 == k) = true
    · rw [if_pos hk, List.find?_cons]
      have hself : (((k, v) : String × RopeState).1 == k) = true := by
        simp
      rw [hself]
    · rw [if_neg hk, List.find?_cons]
      rw [Bool.not_eq_true] at hk
      rw [hk]
      have h' : storeHas tl k = true := by
        unfold storeHas storeGet at h
        rw [List.find?_cons, hk] at h
        exact h
      exact ih h'

theorem storeGet_storeSet_self (s : Store) (k : String) (v : RopeState) :
    storeGet (storeSet s k v) k = some v := by
  unfold storeSet
  split
  · unfold storeGet
    rw [find?_map_set_self s k v (by assumption)]
    rfl
  · rename_i h
    have hn : List.find? (fun (kv : String × RopeState) => kv.1 == k) s = none := by
      rcases hfind : List.find? (fun (kv : String × RopeState) => kv.1 == k) s
        with _ | kv0
      · rfl
      · rw [storeHas, storeGet, hfind] at h
        simp at h
    unfold storeGet
    rw [List.find?_append, hn]
    rw [List.find?_cons,
      show (((k, v) : String × RopeState).1 == k) = true from by simp]
    rfl

theorem find?_map_set_ne (s : Store) (k k' : String) (v : RopeState)
    (h : k' ≠ k) :
    List.find? (fun kv => kv.1 == k')
      (s.map (fun kv => if kv.1 == k then (k, v) else kv)) =
    List.find? (fun kv => kv.1 == k') s := by
  induction s with
  | nil => rfl
  | cons hd tl ih =>
    rw [List.map_cons, List.find?_cons, List.find?_cons]
    by_cases hk : (hd.1 == k) = true
    · rw [if_pos hk]
      have hkv : (((k, v) : String × RopeState).1 == k') = false := by
        simp only [beq_eq_false_iff_ne, ne_eq]
        exact fun he => h he.symm
      have hhd : (hd.1 == k') = false := by
        simp only [beq_eq_false_iff_ne, ne_eq]
        rw [beq_iff_eq] at hk
        rw [hk]
        exact fun he => h he.symm
      rw [hkv, hhd]
      exact ih
    · rw [if_neg hk]
      by_cases hk' : (hd.1 == k') = true
      · rw [hk']
      · rw [Bool.not_eq_true] at hk'
        rw [hk']
        exact ih

theorem storeGet_storeSet_ne (s : Store) (k k' : String) (v : RopeState)
    (h : k' ≠ k) : storeGet (storeSet s k v) k' = storeGet s k' := by
  unfold storeSet
  split
  · unfold storeGet
    rw [find?_map_set_ne s k k' v h]
  · unfold storeGet
    rw [List.find?_append]
    have hkv : (((k, v) : String × RopeState).1 == k') = false := by
      simp only [beq_eq_false_iff_ne, ne_eq]
      exact fun he => h he.symm
    rw [List.find?_cons, hkv]
    rcases hfind : List.find? (fun (kv : String × RopeState) => kv.1 == k') s
      with _ | kv0 <;> rfl

theorem storeGet_filter_none (s : Store) (p : String × RopeState → Bool)
    (k' : String) (h : ∀ kv ∈ s, kv.1 = k' → p kv = false) :
    storeGet (s.filter p) k' = none := by
  unfold storeGet
  have hn : List.find? (fun (kv : String × RopeState) => kv.1 == k')
      (s.filter p) = none := by
    rw [List.find?_eq_none]
    intro x hx hbeq
    rw [List.mem_filter] at hx
    have hx1 : x.1 = k' := by
      simpa [beq_iff_eq] using hbeq
    rw [h x hx.1 hx1] at hx
    simp at hx
  rw [hn]
  rfl

theorem storeSize_le_storeSet (s : Store) (k : String) (v : RopeState) :
    storeSize s ≤ storeSize (storeSet s k v) := by
  unfold storeSet storeSize
  split
  · rw [List.length_map]
  · rw [List.length_append]
    omega

theorem storeGet_some_mem (s : Store) (k : String) (v : RopeState)
    (h : storeGet s k = some v) : (k, v) ∈ s := by
  unfold storeGet at h
  rcases hfind : List.find? (fun kv => kv.1 == k) s with _ | kv0
  · rw [hfind] at h
    simp at h
  · rw [hfind] at h
    have hv : kv0.2 = v := by
      simpa using h
    have hmem := List.mem_of_find?_eq_some hfind
    have hp := List.find?_some hfind
    have hk : kv0.1 = k := by
      simpa [beq_iff_eq] using hp
    have : (k, v) = kv0 := by
      rw [← hk, ← hv]
    rw [this]
    exact hmem

theorem getRopePoints_run_found (sqrtFn : ℚ → ℚ) (st : LinkFXState)
    (link : Option Link) (a b : ℚ × ℚ) (len now : ℚ) (s0 : RopeState)
    (hg : st.gravityEnabled = true)
    (hfound : storeGet st.ropePhysics (getRopeKey link a b) = some s0) :
    if |s0.segmentLen - len / ((ROPE_SEGMENTS : ℕ) : ℚ)| > 20 then
      (getRopePoints sqrtFn st link a b len now).1 =
        some (createRopeState a b len now).points ∧
      storeGet (getRopePoints sqrtFn st link a b len now).2.ropePhysics
        (getRopeKey link a b) = some (createRopeState a b len now)
    else
      (getRopePoints sqrtFn st link a b len now).1 =
        some (updateRopePhysics sqrtFn { s0 with lastSeen := now }
          a b len).points ∧
      storeGet (getRopePoints sqrtFn st link a b len now).2.ropePhysics
        (getRopeKey link a b) =
        some (updateRopePhysics sqrtFn { s0 with lastSeen := now } a b len) := by
  have hhas : storeHas st.ropePhysics (getRopeKey link a b) = true := by
    rw [storeHas, hfound]
    rfl
  have hgr : getRopePoints sqrtFn st link a b len now =
      (if |s0.segmentLen - len / ((ROPE_SEGMENTS : ℕ) : ℚ)| > 20 then
        (some (createRopeState a b len now).points,
         { st with
             ropePhysics :=
               storeSet
                 (if (decide (storeSize (storeSet st.ropePhysics
                      (getRopeKey link a b) { s0 with lastSeen := now })
                      > 60) &&
                     decide (now - st.lastRopeCleanup > 3000)) = true then
                   (storeSet st.ropePhysics (getRopeKey link a b)
                     { s0 with lastSeen := now }).filter
                     (fun kv => !decide (now - kv.2.lastSeen > 8000))
                 else storeSet st.ropePhysics (getRopeKey link a b)
                   { s0 with lastSeen := now })
                 (getRopeKey link a b) (createRopeState a b len now),
             lastRopeCleanup :=
               if (decide (storeSize (storeSet st.ropePhysics
                    (getRopeKey link a b) { s0 with lastSeen := now }) > 60) &&
                   decide (now - st.lastRopeCleanup > 3000)) = true then now
               else st.lastRopeCleanup })
      else
        (some (updateRopePhysics sqrtFn { s0 with lastSeen := now }
           a b len).points,
         { st with
             ropePhysics :=
               storeSet
                 (if (decide (storeSize (storeSet st.ropePhysics
                      (getRopeKey link a b) { s0 with lastSeen := now })
                      > 60) &&
                     decide (now - st.lastRopeCleanup > 3000)) = true then
                   (storeSet st.ropePhysics (getRopeKey link a b)
                     { s0 with lastSeen := now }).filter
                     (fun kv => !decide (now - kv.2.lastSeen > 8000))
                 else storeSet st.ropePhysics (getRopeKey link a b)
                   { s0 with lastSeen := now })
                 (getRopeKey link a b)
                 (updateRopePhysics sqrtFn { s0 with lastSeen := now } a b len),
             lastRopeCleanup :=
               if (decide (storeSize (storeSet st.ropePhysics
                    (getRopeKey link a b) { s0 with lastSeen := now }) > 60) &&
                   decide (now - st.lastRopeCleanup > 3000)) = true then now
               else st.lastRopeCleanup })) := by
    unfold getRopePoints
    rw [if_neg (show ¬(st.gravityEnabled = false) by rw [hg]; simp)]
    dsimp only
    rw [if_pos hhas, hfound]
    rfl
  rw [hgr]
  by_cases hresize : |s0.segmentLen - len / ((ROPE_SEGMENTS : ℕ) : ℚ)| > 20
  · rw [if_pos hresize, if_pos hresize]
    exact ⟨rfl, storeGet_storeSet_self _ _ _⟩
  · rw [if_neg hresize, if_neg hresize]
    exact ⟨rfl, storeGet_storeSet_self _ _ _⟩

theorem getRopePoints_run_fresh (sqrtFn : ℚ → ℚ) (st : LinkFXState)
    (link : Option Link) (a b : ℚ × ℚ) (len now : ℚ)
    (hg : st.gravityEnabled = true)
    (hnone : storeGet st.ropePhysics (getRopeKey link a b) = none) :
    (getRopePoints sqrtFn st link a b len now).1 =
      some (updateRopePhysics sqrtFn (createRopeState a b len now)
        a b len).points ∧
    storeGet (getRopePoints sqrtFn st link a b len now).2.ropePhysics
      (getRopeKey link a b) =
      some (updateRopePhysics sqrtFn (createRopeState a b len now) a b len) := by
  have hhas : storeHas st.ropePhysics (getRopeKey link a b) = false := by
    rw [storeHas, hnone]
    rfl
  have hbump : { createRopeState a b len now with lastSeen := now } =
      createRopeState a b len now := rfl
  have hget0 : storeGet (storeSet st.ropePhysics (getRopeKey link a b)
      (createRopeState a b len now)) (getRopeKey link a b) =
      some (createRopeState a b len now) := storeGet_storeSet_self _ _ _
  have hresize :
      ¬(|(createRopeState a b len now).segmentLen -
          len / ((ROPE_SEGMENTS : ℕ) : ℚ)| > 20) := by
    unfold createRopeState
    dsimp only
    norm_num [ROPE_SEGMENTS]
  have hgr : getRopePoints sqrtFn st link a b len now =
      (some (updateRopePhysics sqrtFn (createRopeState a b len now)
         a b len).points,
       { st with
           ropePhysics :=
             storeSet
               (if (decide (storeSize (storeSet (storeSet st.ropePhysics
                    (getRopeKey link a b) (createRopeState a b len now))
                    (getRopeKey link a b) (createRopeState a b len now))
                    > 60) &&
                   decide (now - st.lastRopeCleanup > 3000)) = true then
                 (storeSet (storeSet st.ropePhysics (getRopeKey link a b)
                    (createRopeState a b len now)) (getRopeKey link a b)
                    (createRopeState a b len now)).filter
                   (fun kv => !decide (now - kv.2.lastSeen > 8000))
               else storeSet (storeSet st.ropePhysics (getRopeKey link a b)
                 (createRopeState a b len now)) (getRopeKey link a b)
                 (createRopeState a b len now))
               (getRopeKey link a b)
               (updateRopePhysics sqrtFn (createRopeState a b len now) a b len),
           lastRopeCleanup :=
             if (decide (storeSize (storeSet (storeSet st.ropePhysics
                  (getRopeKey link a b) (createRopeState a b len now))
                  (getRopeKey link a b) (createRopeState a b len now)) > 60) &&
                 decide (now - st.lastRopeCleanup > 3000)) = true then now
             else st.lastRopeCleanup }) := by
    unfold getRopePoints
    rw [if_neg (show ¬(st.gravityEnabled = false) by rw [hg]; simp)]
    dsimp only
    rw [if_neg (show ¬(storeHas st.ropePhysics (getRopeKey link a b) = true)
      by rw [hhas]; simp)]
    rw [hget0]
    simp only [Option.getD_some]
    split
    · rename_i hcond
      exact absurd hcond hresize
    · rfl
  rw [hgr]
  exact ⟨rfl, storeGet_storeSet_self _ _ _⟩

theorem createRopeState_points (a b : ℚ × ℚ) (len now : ℚ) :
    (createRopeState a b len now).points.length = ROPE_SEGMENTS + 1 ∧
    ∀ i < ROPE_SEGMENTS + 1,
      getP (createRopeState a b len now).points i =
        { x := a.1 + (b.1 - a.1) * ((i : ℚ) / 8),
          y := a.2 + (b.2 - a.2) * ((i : ℚ) / 8) +
            min (len * 0.15) 60 * 4 * ((i : ℚ) / 8) * (1 - (i : ℚ) / 8),
          oldX := a.1 + (b.1 - a.1) * ((i : ℚ) / 8),
          oldY := a.2 + (b.2 - a.2) * ((i : ℚ) / 8) +
            min (len * 0.15) 60 * 4 * ((i : ℚ) / 8) * (1 - (i : ℚ) / 8),
          pinned := i == 0 || i == ROPE_SEGMENTS } := by
  constructor
  · unfold createRopeState
    dsimp only
    rw [List.length_map, List.length_range]
  · intro i hi
    have hi' : i < 9 := by
      simpa [ROPE_SEGMENTS] using hi
    unfold createRopeState
    dsimp only
    rw [getP, List.getD_eq_getElem?_getD, List.getElem?_map,
      show ((ROPE_SEGMENTS + 1 : ℕ)) = 9 from rfl,
      List.getElem?_range hi', Option.map_some', Option.getD_some]
    simp only [RopePoint.mk.injEq, ROPE_SEGMENTS]
    norm_num

theorem WFState_points {s t : RopeState} (h : s.points = t.points)
    (ht : WFState t) : WFState s := by
  unfold WFState at ht ⊢
  rw [h]
  exact ht

theorem createRopeState_wf (a b : ℚ × ℚ) (len now : ℚ) :
    WFState (createRopeState a b len now) := by
  obtain ⟨hlen, hpts⟩ := createRopeState_points a b len now
  refine ⟨hlen, ?_⟩
  intro i hi
  rw [hlen] at hi
  rw [hpts i hi]

theorem updateRopePhysics_wf (sqrtFn : ℚ → ℚ) (s : RopeState)
    (a b : ℚ × ℚ) (len : ℚ) (h : WFState s) :
    WFState (updateRopePhysics sqrtFn s a b len) := by
  obtain ⟨hlen, hflag⟩ := h
  obtain ⟨hulen, huflag⟩ := updateRopePhysics_length_flags sqrtFn s a b len
  refine ⟨hulen.trans hlen, ?_⟩
  intro i hi
  rw [hulen] at hi
  rw [huflag i]
  exact hflag i hi

theorem getRopePoints_member_points (sqrtFn : ℚ → ℚ) (st : LinkFXState)
    (link : Option Link) (a b : ℚ × ℚ) (len now : ℚ)
    (kv : String × RopeState) (hg : st.gravityEnabled = true)
    (hkv : kv ∈ (getRopePoints sqrtFn st link a b len now).2.ropePhysics) :
    (∃ v : RopeState, (kv.1, v) ∈ st.ropePhysics ∧
      (kv.2.points = v.points ∨
       kv.2.points = (updateRopePhysics sqrtFn { v with lastSeen := now }
         a b len).points)) ∨
    kv.2.points = (createRopeState a b len now).points ∨
    kv.2.points = (updateRopePhysics sqrtFn (createRopeState a b len now)
      a b len).points := by
  unfold getRopePoints at hkv
  rw [if_neg (show ¬(st.gravityEnabled = false) by rw [hg]; simp)] at hkv
  dsimp only at hkv
  by_cases hhas : storeHas st.ropePhysics (getRopeKey link a b) = true
  · rw [if_pos hhas] at hkv
    rcases hget : storeGet st.ropePhysics (getRopeKey link a b) with _ | s0
    · rw [storeHas, hget] at hhas
      simp at hhas
    · rw [hget] at hkv
      simp only [Option.getD_some] at hkv
      have hs0mem : (getRopeKey link a b, s0) ∈ st.ropePhysics :=
        storeGet_some_mem _ _ _ hget
      split at hkv <;> dsimp only at hkv <;>
        rcases mem_storeSet hkv with heq | hkv2
      · exact Or.inr (Or.inl (by rw [heq]))
      · have hkv3 : kv ∈ storeSet st.ropePhysics (getRopeKey link a b)
            { s0 with lastSeen := now } := by
          split at hkv2
          · exact (List.mem_filter.mp hkv2).1
          · exact hkv2
        rcases mem_storeSet hkv3 with heq2 | hkv4
        · exact Or.inl ⟨s0, by rw [heq2]; exact hs0mem, Or.inl (by rw [heq2])⟩
        · refine Or.inl ⟨kv.2, ?_, Or.inl rfl⟩
          rw [Prod.mk.eta]
          exact hkv4
      · refine Or.inl ⟨s0, by rw [heq]; exact hs0mem, Or.inr (by rw [heq])⟩
      · have hkv3 : kv ∈ storeSet st.ropePhysics (getRopeKey link a b)
            { s0 with lastSeen := now } := by
          split at hkv2
          · exact (List.mem_filter.mp hkv2).1
          · exact hkv2
        rcases mem_storeSet hkv3 with heq2 | hkv4
        · exact Or.inl ⟨s0, by rw [heq2]; exact hs0mem, Or.inl (by rw [heq2])⟩
        · refine Or.inl ⟨kv.2, ?_, Or.inl rfl⟩
          rw [Prod.mk.eta]
          exact hkv4
  · rw [if_neg hhas] at hkv
    rw [storeGet_storeSet_self st.ropePhysics (getRopeKey link a b)
      (createRopeState a b len now)] at hkv
    simp only [Option.getD_some] at hkv
    split at hkv <;> dsimp only at hkv <;>
      rcases mem_storeSet hkv with heq | hkv2
    · exact Or.inr (Or.inl (by rw [heq]))
    · have hkv3 : kv ∈ storeSet
          (storeSet st.ropePhysics (getRopeKey link a b)
            (createRopeState a b len now))
          (getRopeKey link a b)
          { createRopeState a b len now with lastSeen := now } := by
        split at hkv2
        · exact (List.mem_filter.mp hkv2).1
        · exact hkv2
      rcases mem_storeSet hkv3 with heq2 | hkv4
      · exact Or.inr (Or.inl (by rw [heq2]))
      · rcases mem_storeSet hkv4 with heq3 | hkv5
        · exact Or.inr (Or.inl (by rw [heq3]))
        · refine Or.inl ⟨kv.2, ?_, Or.inl rfl⟩
          rw [Prod.mk.eta]
          exact hkv5
    · refine Or.inr (Or.inr ?_)
      rw [heq]
      rfl
    · have hkv3 : kv ∈ storeSet
          (storeSet st.ropePhysics (getRopeKey link a b)
            (createRopeState a b len now))
          (getRopeKey link a b)
          { createRopeState a b len now with lastSeen := now } := by
        split at hkv2
        · exact (List.mem_filter.mp hkv2).1
        · exact hkv2
      rcases mem_storeSet hkv3 with heq2 | hkv4
      · exact Or.inr (Or.inl (by rw [heq2]))
      · rcases mem_storeSet hkv4 with heq3 | hkv5
        · exact Or.inr (Or.inl (by rw [heq3]))
        · refine Or.inl ⟨kv.2, ?_, Or.inl rfl⟩
          rw [Prod.mk.eta]
          exact hkv5

/-! ## Claim theorems -/

/-- **C2.** Endpoint pinning: for every rope state whose two terminal
points carry the `pinned` flag (as every state the simulation creates
does) and every integration step, the updated `points[0]` and
`points[last]` equal the step's `a` and `b` exactly, in both current
and previous position (and stay flagged pinned, so the property is
preserved across any sequence of steps); moreover the
constraint-relaxation iterations never move a pinned point, and the
Verlet loop never touches the two terminal points. -/
theorem updateRopePhysics_pins_endpoints (sqrtFn : ℚ → ℚ)
    (state : RopeState) (a b : ℚ × ℚ) (len : ℚ)
    (hn : 2 ≤ state.points.length)
    (h0 : (getP state.points 0).pinned = true)
    (hl : (getP state.points (state.points.length - 1)).pinned = true) :
    (updateRopePhysics sqrtFn state a b len).points.length =
      state.points.length ∧
    getP (updateRopePhysics sqrtFn state a b len).points 0 =
      ⟨a.1, a.2, a.1, a.2, true⟩ ∧
    getP (updateRopePhysics sqrtFn state a b len).points
      (state.points.length - 1) = ⟨b.1, b.2, b.1, b.2, true⟩ ∧
    (∀ (tl : ℚ) (qs : List RopePoint) (j : ℕ), (getP qs j).pinned = true →
      getP (constraintPhase sqrtFn tl qs) j = getP qs j) ∧
    (∀ qs : List RopePoint,
      getP (verletPhase qs) 0 = getP qs 0 ∧
      getP (verletPhase qs) (qs.length - 1) = getP qs (qs.length - 1)) := by
  obtain ⟨qs, hqlen, hqflag, hq0, hqn, hpts⟩ :=
    updateRopePhysics_shape sqrtFn state a b len
  have hq2 : 2 ≤ qs.length := by
    rw [hqlen]
    exact hn
  obtain ⟨hp0, hpn⟩ := pinPhase_endpoints a b qs hq2
  have hpin0 : (getP qs 0).pinned = true := by
    rw [hqflag 0]
    exact h0
  have hpinN : (getP qs (qs.length - 1)).pinned = true := by
    rw [hqlen, hqflag (state.points.length - 1)]
    exact hl
  have e0 : getP (pinPhase a b qs) 0 = ⟨a.1, a.2, a.1, a.2, true⟩ := by
    rw [hp0]
    dsimp only
    rw [hpin0]
  have en : getP (pinPhase a b qs) (qs.length - 1) =
      ⟨b.1, b.2, b.1, b.2, true⟩ := by
    rw [hpn]
    dsimp only
    rw [hpinN]
  have hv0 : getP (verletPhase (pinPhase a b qs)) 0 =
      ⟨a.1, a.2, a.1, a.2, true⟩ :=
    ((verletPhase_spec (pinPhase a b qs)).2.2.1).trans e0
  have hvn : getP (verletPhase (pinPhase a b qs)) (qs.length - 1) =
      ⟨b.1, b.2, b.1, b.2, true⟩ := by
    have h1 := (verletPhase_spec (pinPhase a b qs)).2.2.2
    rw [pinPhase_length] at h1
    exact h1.trans en
  have hvlen : (verletPhase (pinPhase a b qs)).length =
      state.points.length := by
    rw [(verletPhase_spec _).1, pinPhase_length, hqlen]
  refine ⟨?_, ?_, ?_, ?_, ?_⟩
  · rw [hpts, (constraintPhase_spec _ _ _).1, hvlen]
  · rw [hpts]
    have hc := (constraintPhase_spec sqrtFn
      (len / (((verletPhase (pinPhase a b qs)).length : ℚ) - 1))
      (verletPhase (pinPhase a b qs))).2.2 0 (by rw [hv0])
    exact hc.trans hv0
  · rw [hpts]
    have hc := (constraintPhase_spec sqrtFn
      (len / (((verletPhase (pinPhase a b qs)).length : ℚ) - 1))
      (verletPhase (pinPhase a b qs))).2.2 (qs.length - 1) (by rw [hvn])
    rw [show state.points.length - 1 = qs.length - 1 from by rw [hqlen]]
    exact hc.trans hvn
  · intro tl qs' j hj
    exact (constraintPhase_spec sqrtFn tl qs').2.2 j hj
  · intro qs'
    exact ⟨(verletPhase_spec qs').2.2.1, (verletPhase_spec qs').2.2.2⟩

/-- Witness for `updateRopePhysics_pins_endpoints` on a freshly created
rope stepped with moved endpoints. -/
theorem updateRopePhysics_pins_endpoints_witness :
    2 ≤ (createRopeState (0, 0) (100, 0) 100 0).points.length ∧
    (getP (createRopeState (0, 0) (100, 0) 100 0).points 0).pinned = true ∧
    (getP (createRopeState (0, 0) (100, 0) 100 0).points
      ((createRopeState (0, 0) (100, 0) 100 0).points.length - 1)).pinned
      = true ∧
    getP (updateRopePhysics ratSqrt (createRopeState (0, 0) (100, 0) 100 0)
      (3, 4) (90, 7) 100).points 0 = ⟨3, 4, 3, 4, true⟩ ∧
    getP (updateRopePhysics ratSqrt (createRopeState (0, 0) (100, 0) 100 0)
        (3, 4) (90, 7) 100).points
      ((createRopeState (0, 0) (100, 0) 100 0).points.length - 1) =
      ⟨90, 7, 90, 7, true⟩ := by
  have h := updateRopePhysics_pins_endpoints ratSqrt
    (createRopeState (0, 0) (100, 0) 100 0) (3, 4) (90, 7) 100
    (by decide) (by decide) (by decide)
  exact ⟨by decide, by decide, by decide, h.2.1, h.2.2.1⟩

/-- **C3.** `getRopePoints` returns `null` with no store mutation
whenever gravity is disabled; the gravity-toggle click handler clears
the whole rope store when disabling, so after disabling and re-enabling
gravity a request runs from a freshly created catenary-sag state (one
integration step applied to `createRopeState`), not from any old
simulation state. -/
theorem getRopePoints_gravity_gate (sqrtFn : ℚ → ℚ)
    (stOff stOn : LinkFXState) (link : Option Link) (a b : ℚ × ℚ)
    (len now : ℚ) (hOff : stOff.gravityEnabled = false)
    (hOn : stOn.gravityEnabled = true) :
    getRopePoints sqrtFn stOff link a b len now = (none, stOff) ∧
    (gravityToggleClick stOn).gravityEnabled = false ∧
    (gravityToggleClick stOn).ropePhysics = [] ∧
    (getRopePoints sqrtFn (gravityToggleClick (gravityToggleClick stOn))
        link a b len now).1 =
      some (updateRopePhysics sqrtFn (createRopeState a b len now)
        a b len).points := by
  have h1 : getRopePoints sqrtFn stOff link a b len now = (none, stOff) := by
    unfold getRopePoints
    rw [if_pos hOff]
  have hst2 : gravityToggleClick (gravityToggleClick stOn) =
      { gravityEnabled := true, ropePhysics := [],
        lastRopeCleanup := stOn.lastRopeCleanup } := by
    unfold gravityToggleClick
    dsimp only
    rw [hOn]
    rfl
  refine ⟨h1, ?_, ?_, ?_⟩
  · unfold gravityToggleClick
    dsimp only
    rw [hOn]
    rfl
  · unfold gravityToggleClick
    dsimp only
    rw [hOn]
    rfl
  · rw [hst2]
    exact (getRopePoints_run_fresh sqrtFn
      ⟨true, [], stOn.lastRopeCleanup⟩ link a b len now rfl rfl).1

/-- Witness for `getRopePoints_gravity_gate` at concrete states. -/
theorem getRopePoints_gravity_gate_witness :
    (⟨false, [], 0⟩ : LinkFXState).gravityEnabled = false ∧
    (⟨true, [("k", createRopeState (0, 0) (1, 0) 1 0)], 5⟩ :
      LinkFXState).gravityEnabled = true ∧
    (getRopePoints ratSqrt ⟨false, [], 0⟩ (some ⟨some 2, 1, 1⟩) (0, 0)
        (100, 0) 100 7 = (none, ⟨false, [], 0⟩) ∧
      (gravityToggleClick
        ⟨true, [("k", createRopeState (0, 0) (1, 0) 1 0)], 5⟩).gravityEnabled
        = false ∧
      (gravityToggleClick
        ⟨true, [("k", createRopeState (0, 0) (1, 0) 1 0)], 5⟩).ropePhysics
        = [] ∧
      (getRopePoints ratSqrt
          (gravityToggleClick (gravityToggleClick
            ⟨true, [("k", createRopeState (0, 0) (1, 0) 1 0)], 5⟩))
          (some ⟨some 2, 1, 1⟩) (0, 0) (100, 0) 100 7).1 =
        some (updateRopePhysics ratSqrt (createRopeState (0, 0) (100, 0)
          100 7) (0, 0) (100, 0) 100).points) :=
  ⟨rfl, rfl,
   getRopePoints_gravity_gate ratSqrt ⟨false, [], 0⟩
     ⟨true, [("k", createRopeState (0, 0) (1, 0) 1 0)], 5⟩
     (some ⟨some 2, 1, 1⟩) (0, 0) (100, 0) 100 7 rfl rfl⟩

/-- **C4 counterexample.** A request that triggers resize recreation
(stored segment rest-length `100`, new `len/N = 12.5`) returns the
freshly created, *un-stepped* points: they differ both from one
integration step applied to the prior state and from one step applied
to the fresh state — so not every request advances the simulation by
exactly one step. -/
theorem getRopePoints_resize_skips_step :
    (getRopePoints ratSqrt
        ⟨true, [("link_1", createRopeState (0, 0) (800, 0) 800 0)], 0⟩
        (some ⟨some 1, 0, 0⟩) (0, 0) (100, 0) 100 1).1 =
      some (createRopeState (0, 0) (100, 0) 100 1).points ∧
    (createRopeState (0, 0) (100, 0) 100 1).points ≠
      (updateRopePhysics ratSqrt
        { createRopeState (0, 0) (800, 0) 800 0 with lastSeen := 1 }
        (0, 0) (100, 0) 100).points ∧
    (createRopeState (0, 0) (100, 0) 100 1).points ≠
      (updateRopePhysics ratSqrt (createRopeState (0, 0) (100, 0) 100 1)
        (0, 0) (100, 0) 100).points := by
  refine ⟨?_, by decide, by decide⟩
  have h := getRopePoints_run_found ratSqrt
    ⟨true, [("link_1", createRopeState (0, 0) (800, 0) 800 0)], 0⟩
    (some ⟨some 1, 0, 0⟩) (0, 0) (100, 0) 100 1
    (createRopeState (0, 0) (800, 0) 800 0) rfl (by decide)
  rw [if_pos (by decide)] at h
  exact h.1

/-- **C4 (amended).** With gravity enabled, a `getRopePoints` request
for a key with no stored state, or whose stored segment rest-length is
within the resize threshold, returns exactly one integration step
applied to the (freshly created or stored, `lastSeen`-bumped) state;
a request whose stored segment rest-length is off by more than 20
returns the freshly created state with no integration step. -/
theorem getRopePoints_step_spec (sqrtFn : ℚ → ℚ) (st : LinkFXState)
    (link : Option Link) (a b : ℚ × ℚ) (len now : ℚ)
    (hg : st.gravityEnabled = true) :
    match storeGet st.ropePhysics (getRopeKey link a b) with
    | none =>
      (getRopePoints sqrtFn st link a b len now).1 =
        some (updateRopePhysics sqrtFn (createRopeState a b len now)
          a b len).points
    | some s0 =>
      if |s0.segmentLen - len / ((ROPE_SEGMENTS : ℕ) : ℚ)| > 20 then
        (getRopePoints sqrtFn st link a b len now).1 =
          some (createRopeState a b len now).points
      else
        (getRopePoints sqrtFn st link a b len now).1 =
          some (updateRopePhysics sqrtFn { s0 with lastSeen := now }
            a b len).points := by
  rcases hget : storeGet st.ropePhysics (getRopeKey link a b) with _ | s0
  · exact (getRopePoints_run_fresh sqrtFn st link a b len now hg hget).1
  · have h := getRopePoints_run_found sqrtFn st link a b len now s0 hg hget
    dsimp only
    by_cases hre : |s0.segmentLen - len / ((ROPE_SEGMENTS : ℕ) : ℚ)| > 20
    · rw [if_pos hre] at h ⊢
      exact h.1
    · rw [if_neg hre] at h ⊢
      exact h.1

/-- Witness for `getRopePoints_step_spec` on a fresh key. -/
theorem getRopePoints_step_spec_witness :
    (⟨true, [], 0⟩ : LinkFXState).gravityEnabled = true ∧
    (match storeGet ([] : Store)
        (getRopeKey (some ⟨some 3, 1, 2⟩) (0, 0) (40, 0)) with
    | none =>
      (getRopePoints ratSqrt ⟨true, [], 0⟩ (some ⟨some 3, 1, 2⟩) (0, 0)
          (40, 0) 40 9).1 =
        some (updateRopePhysics ratSqrt (createRopeState (0, 0) (40, 0) 40 9)
          (0, 0) (40, 0) 40).points
    | some s0 =>
      if |s0.segmentLen - 40 / ((ROPE_SEGMENTS : ℕ) : ℚ)| > 20 then
        (getRopePoints ratSqrt ⟨true, [], 0⟩ (some ⟨some 3, 1, 2⟩) (0, 0)
            (40, 0) 40 9).1 =
          some (createRopeState (0, 0) (40, 0) 40 9).points
      else
        (getRopePoints ratSqrt ⟨true, [], 0⟩ (some ⟨some 3, 1, 2⟩) (0, 0)
            (40, 0) 40 9).1 =
          some (updateRopePhysics ratSqrt { s0 with lastSeen := 9 }
            (0, 0) (40, 0) 40).points) :=
  ⟨rfl, getRopePoints_step_spec ratSqrt ⟨true, [], 0⟩ (some ⟨some 3, 1, 2⟩)
    (0, 0) (40, 0) 40 9 rfl⟩

/-- **C5.** Resize recreation: when the stored segment rest-length
differs from `len/N` by more than 20, `getRopePoints` returns — and
stores — a freshly initialized rope: `N + 1` points on the straight
line from `a` to `b` offset by the sag curve
`min(len*0.15, 60) * 4t(1-t)`, with old position equal to current
position (zero velocity), not a continuation of the old simulation. -/
theorem getRopePoints_resize_recreates (sqrtFn : ℚ → ℚ)
    (st : LinkFXState) (link : Option Link) (a b : ℚ × ℚ) (len now : ℚ)
    (s0 : RopeState) (hg : st.gravityEnabled = true)
    (hfound : storeGet st.ropePhysics (getRopeKey link a b) = some s0)
    (hresize : |s0.segmentLen - len / ((ROPE_SEGMENTS : ℕ) : ℚ)| > 20) :
    (getRopePoints sqrtFn st link a b len now).1 =
      some (createRopeState a b len now).points ∧
    storeGet (getRopePoints sqrtFn st link a b len now).2.ropePhysics
      (getRopeKey link a b) = some (createRopeState a b len now) ∧
    (createRopeState a b len now).points.length = ROPE_SEGMENTS + 1 ∧
    ∀ i < ROPE_SEGMENTS + 1,
      getP (createRopeState a b len now).points i =
        { x := a.1 + (b.1 - a.1) * ((i : ℚ) / 8),
          y := a.2 + (b.2 - a.2) * ((i : ℚ) / 8) +
            min (len * 0.15) 60 * 4 * ((i : ℚ) / 8) * (1 - (i : ℚ) / 8),
          oldX := a.1 + (b.1 - a.1) * ((i : ℚ) / 8),
          oldY := a.2 + (b.2 - a.2) * ((i : ℚ) / 8) +
            min (len * 0.15) 60 * 4 * ((i : ℚ) / 8) * (1 - (i : ℚ) / 8),
          pinned := i == 0 || i == ROPE_SEGMENTS } := by
  have h := getRopePoints_run_found sqrtFn st link a b len now s0 hg hfound
  rw [if_pos hresize] at h
  exact ⟨h.1, h.2, (createRopeState_points a b len now).1,
    (createRopeState_points a b len now).2⟩

/-- Witness for `getRopePoints_resize_recreates` at a concrete resized
connector, with the point formula instantiated at the midpoint. -/
theorem getRopePoints_resize_recreates_witness :
    (⟨true, [("link_1", createRopeState (0, 0) (800, 0) 800 0)], 0⟩ :
      LinkFXState).gravityEnabled = true ∧
    storeGet [("link_1", createRopeState (0, 0) (800, 0) 800 0)]
      (getRopeKey (some ⟨some 1, 0, 0⟩) (0, 0) (100, 0)) =
      some (createRopeState (0, 0) (800, 0) 800 0) ∧
    |(createRopeState (0, 0) (800, 0) 800 0).segmentLen -
      100 / ((ROPE_SEGMENTS : ℕ) : ℚ)| > 20 ∧
    (getRopePoints ratSqrt
        ⟨true, [("link_1", createRopeState (0, 0) (800, 0) 800 0)], 0⟩
        (some ⟨some 1, 0, 0⟩) (0, 0) (100, 0) 100 1).1 =
      some (createRopeState (0, 0) (100, 0) 100 1).points ∧
    storeGet (getRopePoints ratSqrt
        ⟨true, [("link_1", createRopeState (0, 0) (800, 0) 800 0)], 0⟩
        (some ⟨some 1, 0, 0⟩) (0, 0) (100, 0) 100 1).2.ropePhysics
      (getRopeKey (some ⟨some 1, 0, 0⟩) (0, 0) (100, 0)) =
      some (createRopeState (0, 0) (100, 0) 100 1) ∧
    getP (createRopeState (0, 0) (100, 0) 100 1).points 4 =
      { x := (0 : ℚ) + (100 - 0) * ((4 : ℕ) / 8 : ℚ),
        y := (0 : ℚ) + (0 - 0) * ((4 : ℕ) / 8 : ℚ) +
          min (100 * 0.15) 60 * 4 * ((4 : ℕ) / 8 : ℚ) *
            (1 - ((4 : ℕ) / 8 : ℚ)),
        oldX := (0 : ℚ) + (100 - 0) * ((4 : ℕ) / 8 : ℚ),
        oldY := (0 : ℚ) + (0 - 0) * ((4 : ℕ) / 8 : ℚ) +
          min (100 * 0.15) 60 * 4 * ((4 : ℕ) / 8 : ℚ) *
            (1 - ((4 : ℕ) / 8 : ℚ)),
        pinned := (4 : ℕ) == 0 || (4 : ℕ) == ROPE_SEGMENTS } := by
  have h := getRopePoints_resize_recreates ratSqrt
    ⟨true, [("link_1", createRopeState (0, 0) (800, 0) 800 0)], 0⟩
    (some ⟨some 1, 0, 0⟩) (0, 0) (100, 0) 100 1
    (createRopeState (0, 0) (800, 0) 800 0) rfl (by decide) (by decide)
  exact ⟨rfl, by decide, by decide, h.1, h.2.1,
    h.2.2.2 4 (by decide)⟩

/-- **C9.** Example scenario `a = (0,0)`, `b = (100,0)`, gravity
enabled: creation yields 9 points with `y = 15 * 4t(1-t)` (downward
sag, maximum `min(100*0.15, 60) = 15` at the midpoint) and zero
velocity; the first `getRopePoints` call returns exactly one
integration step applied to that fresh state, after which the
midpoint's y has strictly increased while the endpoints remain exactly
`(0,0)` and `(100,0)` in both current and previous position. -/
theorem first_call_scenario_spec :
    (createRopeState (0, 0) (100, 0) 100 1000).points.length = 9 ∧
    (∀ i < 9,
      (getP (createRopeState (0, 0) (100, 0) 100 1000).points i).y =
        15 * (4 * ((i : ℚ) / 8) * (1 - (i : ℚ) / 8)) ∧
      (getP (createRopeState (0, 0) (100, 0) 100 1000).points i).oldX =
        (getP (createRopeState (0, 0) (100, 0) 100 1000).points i).x ∧
      (getP (createRopeState (0, 0) (100, 0) 100 1000).points i).oldY =
        (getP (createRopeState (0, 0) (100, 0) 100 1000).points i).y) ∧
    (getP (createRopeState (0, 0) (100, 0) 100 1000).points 4).y = 15 ∧
    (∀ i < 9,
      (getP (createRopeState (0, 0) (100, 0) 100 1000).points i).y ≤ 15) ∧
    (getRopePoints ratSqrt ⟨true, [], 0⟩ (some ⟨some 1, 0, 0⟩) (0, 0)
        (100, 0) 100 1000).1 =
      some (updateRopePhysics ratSqrt
        (createRopeState (0, 0) (100, 0) 100 1000) (0, 0) (100, 0)
        100).points ∧
    (getP (updateRopePhysics ratSqrt
        (createRopeState (0, 0) (100, 0) 100 1000) (0, 0) (100, 0)
        100).points 4).y > 15 ∧
    getP (updateRopePhysics ratSqrt
        (createRopeState (0, 0) (100, 0) 100 1000) (0, 0) (100, 0)
        100).points 0 = ⟨0, 0, 0, 0, true⟩ ∧
    getP (updateRopePhysics ratSqrt
        (createRopeState (0, 0) (100, 0) 100 1000) (0, 0) (100, 0)
        100).points 8 = ⟨100, 0, 100, 0, true⟩ := by
  refine ⟨by decide, by decide, by decide, by decide, ?_, by decide,
    by decide, by decide⟩
  exact (getRopePoints_run_fresh ratSqrt ⟨true, [], 0⟩
    (some ⟨some 1, 0, 0⟩) (0, 0) (100, 0) 100 1000 rfl rfl).1

/-- **C10.** Structural invariant: `createRopeState` yields exactly
`ROPE_SEGMENTS + 1 = 9` points with precisely the two terminal points
pinned; `updateRopePhysics` preserves this shape (it never adds,
removes, reorders or re-pins points); and a `getRopePoints` request on
a store whose entries are all well-formed leaves every entry of the
resulting store well-formed. -/
theorem ropeStore_wf_invariant :
    (∀ (a b : ℚ × ℚ) (len now : ℚ), WFState (createRopeState a b len now)) ∧
    (∀ (sqrtFn : ℚ → ℚ) (s : RopeState) (a b : ℚ × ℚ) (len : ℚ),
      WFState s → WFState (updateRopePhysics sqrtFn s a b len)) ∧
    (∀ (sqrtFn : ℚ → ℚ) (st : LinkFXState) (link : Option Link)
      (a b : ℚ × ℚ) (len now : ℚ),
      (∀ kv ∈ st.ropePhysics, WFState kv.2) →
      ∀ kv ∈ (getRopePoints sqrtFn st link a b len now).2.ropePhysics,
        WFState kv.2) := by
  refine ⟨createRopeState_wf, updateRopePhysics_wf, ?_⟩
  intro sqrtFn st link a b len now hWF kv hkv
  by_cases hg : st.gravityEnabled = true
  · rcases getRopePoints_member_points sqrtFn st link a b len now kv hg hkv
      with ⟨v, hvmem, hp | hp⟩ | hp | hp
    · exact WFState_points hp (hWF (kv.1, v) hvmem)
    · exact WFState_points hp (updateRopePhysics_wf sqrtFn _ a b len
        (hWF (kv.1, v) hvmem))
    · exact WFState_points hp (createRopeState_wf a b len now)
    · exact WFState_points hp (updateRopePhysics_wf sqrtFn _ a b len
        (createRopeState_wf a b len now))
  · have hg' : st.gravityEnabled = false := by
      simpa using hg
    rw [show (getRopePoints sqrtFn st link a b len now).2 = st from by
      unfold getRopePoints; rw [if_pos hg']] at hkv
    exact hWF kv hkv

/-- Witness for `ropeStore_wf_invariant`: the invariant evaluated on a
concrete creation, step, and `getRopePoints` request. -/
theorem ropeStore_wf_invariant_witness :
    WFState (createRopeState (0, 0) (8, 0) 8 3) ∧
    WFState (updateRopePhysics ratSqrt (createRopeState (0, 0) (8, 0) 8 3)
      (0, 0) (8, 0) 8) ∧
    (getRopeKey (some ⟨some 4, 0, 0⟩) (0, 0) (8, 0),
      updateRopePhysics ratSqrt (createRopeState (0, 0) (8, 0) 8 3)
        (0, 0) (8, 0) 8) ∈
      (getRopePoints ratSqrt ⟨true, [], 0⟩ (some ⟨some 4, 0, 0⟩) (0, 0)
        (8, 0) 8 3).2.ropePhysics ∧
    WFState (updateRopePhysics ratSqrt (createRopeState (0, 0) (8, 0) 8 3)
      (0, 0) (8, 0) 8) := by
  have hmem : (getRopeKey (some ⟨some 4, 0, 0⟩) (0, 0) (8, 0),
      updateRopePhysics ratSqrt (createRopeState (0, 0) (8, 0) 8 3)
        (0, 0) (8, 0) 8) ∈
      (getRopePoints ratSqrt ⟨true, [], 0⟩ (some ⟨some 4, 0, 0⟩) (0, 0)
        (8, 0) 8 3).2.ropePhysics :=
    storeGet_some_mem _ _ _
      (getRopePoints_run_fresh ratSqrt ⟨true, [], 0⟩ (some ⟨some 4, 0, 0⟩)
        (0, 0) (8, 0) 8 3 rfl rfl).2
  refine ⟨ropeStore_wf_invariant.1 (0, 0) (8, 0) 8 3,
    ropeStore_wf_invariant.2.1 ratSqrt _ (0, 0) (8, 0) 8
      (ropeStore_wf_invariant.1 (0, 0) (8, 0) 8 3), hmem,
    ropeStore_wf_invariant.2.2 ratSqrt ⟨true, [], 0⟩ (some ⟨some 4, 0, 0⟩)
      (0, 0) (8, 0) 8 3 (fun kv hkv => absurd hkv (List.not_mem_nil kv))
      _ hmem⟩

theorem evict_aux (store1 : Store) (key stale : String) (v : RopeState)
    (now cleanupT : ℚ) (hne : stale ≠ key)
    (hm : ∀ kv ∈ store1, kv.1 = stale → now - kv.2.lastSeen > 8000)
    (hsz : storeSize store1 > 60) (ht : now - cleanupT > 3000) :
    storeHas (storeSet
      (if (decide (storeSize store1 > 60) &&
           decide (now - cleanupT > 3000)) = true then
        store1.filter (fun kv => !decide (now - kv.2.lastSeen > 8000))
      else store1) key v) stale = false := by
  have hf : ∀ kv ∈ store1, kv.1 = stale →
      (!decide (now - kv.2.lastSeen > 8000)) = false := by
    intro kv hkv hk
    rw [decide_eq_true (hm kv hkv hk)]
    rfl
  rw [storeHas, storeGet_storeSet_ne _ _ _ _ hne,
    if_pos (show (decide (storeSize store1 > 60) &&
      decide (now - cleanupT > 3000)) = true by
        rw [decide_eq_true hsz, decide_eq_true ht]; rfl),
    storeGet_filter_none store1 _ stale hf]
  rfl

/-- **C6.** Eviction: with gravity enabled, a request whose store holds
more than 60 entries and whose last sweep is more than 3000 ms old
removes every entry (other than the requested key) whose `lastSeen` is
more than 8000 ms stale — such an entry does not survive into the
resulting store. -/
theorem getRopePoints_evicts_stale (sqrtFn : ℚ → ℚ) (st : LinkFXState)
    (link : Option Link) (a b : ℚ × ℚ) (len now : ℚ) (stale : String)
    (hg : st.gravityEnabled = true)
    (hsize : storeSize st.ropePhysics > 60)
    (htime : now - st.lastRopeCleanup > 3000)
    (hne : stale ≠ getRopeKey link a b)
    (hstale : ∀ kv ∈ st.ropePhysics, kv.1 = stale →
      now - kv.2.lastSeen > 8000) :
    storeHas (getRopePoints sqrtFn st link a b len now).2.ropePhysics
      stale = false := by
  unfold getRopePoints
  rw [if_neg (show ¬(st.gravityEnabled = false) by rw [hg]; simp)]
  dsimp only
  have hm1 : ∀ (w : RopeState) (kv : String × RopeState),
      kv ∈ storeSet st.ropePhysics (getRopeKey link a b) w →
      kv.1 = stale → now - kv.2.lastSeen > 8000 := by
    intro w kv hkv hk
    rcases mem_storeSet hkv with heq | hkv2
    · rw [heq] at hk
      exact absurd hk.symm hne
    · exact hstale kv hkv2 hk
  have hm2 : ∀ (w w' : RopeState) (kv : String × RopeState),
      kv ∈ storeSet (storeSet st.ropePhysics (getRopeKey link a b) w')
        (getRopeKey link a b) w → kv.1 = stale →
      now - kv.2.lastSeen > 8000 := by
    intro w w' kv hkv hk
    rcases mem_storeSet hkv with heq | hkv2
    · rw [heq] at hk
      exact absurd hk.symm hne
    · exact hm1 w' kv hkv2 hk
  have hsz1 : ∀ w : RopeState,
      storeSize (storeSet st.ropePhysics (getRopeKey link a b) w) > 60 :=
    fun _ => Nat.lt_of_lt_of_le hsize (storeSize_le_storeSet _ _ _)
  have hsz2 : ∀ w w' : RopeState,
      storeSize (storeSet (storeSet st.ropePhysics (getRopeKey link a b) w')
        (getRopeKey link a b) w) > 60 :=
    fun w w' => Nat.lt_of_lt_of_le (hsz1 w') (storeSize_le_storeSet _ _ _)
  by_cases hhas : storeHas st.ropePhysics (getRopeKey link a b) = true
  · rw [if_pos hhas]
    split <;> dsimp only
    · exact evict_aux _ _ _ _ _ _ hne (fun kv hkv => hm1 _ kv hkv)
        (hsz1 _) htime
    · exact evict_aux _ _ _ _ _ _ hne (fun kv hkv => hm1 _ kv hkv)
        (hsz1 _) htime
  · rw [if_neg hhas]
    split <;> dsimp only
    · exact evict_aux _ _ _ _ _ _ hne (fun kv hkv => hm2 _ _ kv hkv)
        (hsz2 _ _) htime
    · exact evict_aux _ _ _ _ _ _ hne (fun kv hkv => hm2 _ _ kv hkv)
        (hsz2 _ _) htime

/-- Witness for `getRopePoints_evicts_stale`: a 61-entry store touched
at time 0 and a request at time 8001 evicts the never-touched-again
entry `"link_60"`. -/
theorem getRopePoints_evicts_stale_witness :
    storeHas (getRopePoints ratSqrt ⟨true, bigStore, 0⟩
      (some ⟨some 0, 0, 0⟩) (0, 0) (1, 0) 1 8001).2.ropePhysics
      "link_60" = false :=
  getRopePoints_evicts_stale ratSqrt ⟨true, bigStore, 0⟩
    (some ⟨some 0, 0, 0⟩) (0, 0) (1, 0) 1 8001 "link_60" rfl (by decide)
    (by decide) (by decide) (by decide)

/-- **C7.** Animate-link predicate: in modes `full` and `static` the
predicate is always true; in mode `selected` a connector with no
identity yields true, and with the host's selected-node set `{5}` a
connector with `origin_id = 5, target_id = 9` yields true while one
with `origin_id = 3, target_id = 9` yields false. -/
theorem shouldAnimateLink_selection_spec :
    (∀ (sel : Finset ℤ) (link : Option Link),
      shouldAnimateLink .full sel link = true) ∧
    (∀ (sel : Finset ℤ) (link : Option Link),
      shouldAnimateLink .static sel link = true) ∧
    (∀ sel : Finset ℤ, shouldAnimateLink .selected sel none = true) ∧
    shouldAnimateLink .selected {5} (some ⟨some 7, 5, 9⟩) = true ∧
    shouldAnimateLink .selected {5} (some ⟨some 7, 3, 9⟩) = false :=
  ⟨fun _ _ => rfl, fun _ _ => rfl, fun _ => rfl, by decide, by decide⟩

/-- **C8 counterexample.** A `null`/`undefined` endpoint is not a
numeric array, yet the patched dispatch *throws* a `TypeError` at the
unconditional `Math.hypot(b[0] - a[0], ...)` length computation, which
runs outside every try/catch — it neither no-ops nor falls through to
the original routine; and even for a non-throwing malformed endpoint,
with an effect selected and gravity disabled the dispatch draws
nothing and never invokes the original routine. -/
theorem patchedRenderLink_malformed_counterexample :
    JSVal.nullish.isArray = false ∧
    patchedRenderLink (some 0) false .full ∅ none .nullish (.numArr 5 5)
      true = none ∧
    JSVal.otherVal.isArray = false ∧
    patchedRenderLink (some 0) false .full ∅ none .otherVal (.numArr 5 5)
      true =
      some { effectDrawn := false, ropeDrawn := false,
             originalCalled := false } :=
  ⟨rfl, rfl, rfl, rfl⟩

/-- **C8 (amended).** For every draw request in which an endpoint is
not an array: if either endpoint is `null`/`undefined`, the patched
dispatch throws a `TypeError` (at the unconditional length computation,
before any drawing and outside every try/catch), so nothing is drawn
and the original routine is not invoked; for every other non-array
endpoint the dispatch does not throw and performs no effect drawing,
and it falls through to the host's original link-drawing routine
exactly when no effect is selected and gravity is disabled. -/
theorem patchedRenderLink_malformed_spec (currentEffect : Option ℕ)
    (gravityEnabled : Bool) (mode : AnimationMode) (sel : Finset ℤ)
    (link : Option Link) (a b : JSVal) (ctx : Bool)
    (h : a.isArray = false ∨ b.isArray = false) :
    ((a.indexThrows = true ∨ b.indexThrows = true) →
      patchedRenderLink currentEffect gravityEnabled mode sel link a b
        ctx = none) ∧
    (a.indexThrows = false → b.indexThrows = false →
      (patchedRenderLink currentEffect gravityEnabled mode sel link a b
        ctx).map (fun o => o.effectDrawn) = some false ∧
      ((patchedRenderLink currentEffect gravityEnabled mode sel link a b
        ctx).map (fun o => o.originalCalled) = some true ↔
          currentEffect = none ∧ gravityEnabled = false)) := by
  constructor
  · intro hthrow
    unfold patchedRenderLink
    rcases hthrow with ht | ht <;> rw [ht] <;> simp
  · intro ha hb
    unfold patchedRenderLink
    rw [ha, hb]
    dsimp only
    constructor
    · rcases h with h | h <;> simp [h]
    · cases currentEffect <;> cases gravityEnabled <;>
        simp [Option.isNone, Option.isSome]

/-- Witness for `patchedRenderLink_malformed_spec` at two concrete
malformed inputs: a throwing `null`/`undefined` endpoint and a
non-throwing non-array endpoint. -/
theorem patchedRenderLink_malformed_spec_witness :
    patchedRenderLink (some 0) false .full ∅ none .nullish (.numArr 5 5)
      true = none ∧
    (patchedRenderLink (some 0) false .full ∅ none .otherVal (.numArr 5 5)
      true).map (fun o => o.effectDrawn) = some false ∧
    ((patchedRenderLink (some 0) false .full ∅ none .otherVal (.numArr 5 5)
      true).map (fun o => o.originalCalled) = some true ↔
        (some 0 : Option ℕ) = none ∧ false = false) :=
  ⟨(patchedRenderLink_malformed_spec (some 0) false .full ∅ none .nullish
      (.numArr 5 5) true (Or.inl rfl)).1 (Or.inl rfl),
   (patchedRenderLink_malformed_spec (some 0) false .full ∅ none .otherVal
      (.numArr 5 5) true (Or.inl rfl)).2 rfl rfl⟩

/-- **C1 (evaluation at the failing input).** The Bezier boundary
behaviour holds (`t = 0` yields `a`, `t = 1` yields `b`), and in rope
mode `t = 0` yields the first rope point; but at `t = 1` in rope mode
the sampler returns the *second-to-last* rope point — `(5, 5)` for the
polyline `rope3` with last point `(10, 0)` — because the local
interpolation fraction is computed from the unclamped segment index
`N-1` (where it is `0`) while the segment index is clamped to `N-2`. -/
theorem getSmartPoint_boundary_eval :
    (∀ (a b : ℚ × ℚ) (cp : ℚ), getSmartPoint 0 a b cp none = a) ∧
    (∀ (a b : ℚ × ℚ) (cp : ℚ), getSmartPoint 1 a b cp none = b) ∧
    getSmartPoint 0 (0, 0) (10, 0) 0 (some rope3) = (0, 0) ∧
    getSmartPoint 1 (0, 0) (10, 0) 0 (some rope3) = (5, 5) ∧
    ((5, 5) : ℚ × ℚ) ≠ (10, 0) := by
  refine ⟨?_, ?_, by decide, by decide, by decide⟩
  · intro a b cp
    unfold getSmartPoint bezierPoint
    dsimp only
    rw [Prod.ext_iff]
    constructor <;> dsimp only <;> ring
  · intro a b cp
    unfold getSmartPoint bezierPoint
    dsimp only
    rw [Prod.ext_iff]
    constructor <;> dsimp only <;> ring

end LinkFX
